import Mathlib

/-!
Verification of the filtering, download, fetch and selection-sync logic of the
Maxar Open Data plugin (`maxar_open_data/dialogs/maxar_dock.py`), as a shallow
embedding in Lean.
-/

/-- A GeoJSON footprint feature's property bag, restricted to the properties the
filtering code reads.  `none` models an absent key in the JSON `properties`
object; cloud cover is a JSON number, embedded as a rational. -/
structure Feature where
  cloudsPercent : Option ℚ
  datetime : Option String
deriving DecidableEq

/-- Embeds `f.get("properties", ...).get("tile:clouds_percent", 0)` of
`_on_footprints_loaded`: the cloud-cover property with default 0. -/
def cloudsPercentOrZero (f : Feature) : ℚ :=
  f.cloudsPercent.getD 0

/-- The cloud filter of `_on_footprints_loaded` (maxar_dock.py lines 556-562):
keep the features whose `tile:clouds_percent` (default 0) is `<= max_cloud`.
`maxCloud` is the value of `cloud_spin`, a `QSpinBox` with range 0..100, hence
a natural number. -/
def cloudFilter (maxCloud : ℕ) (features : List Feature) : List Feature :=
  features.filter (fun f => decide (cloudsPercentOrZero f ≤ (maxCloud : ℚ)))

/-- Python's slice `s[:10]` on a string: the first `min 10 (length s)` code
points. -/
def sliceTo10 (s : String) : String :=
  String.mk (s.data.take 10)

/-- Lexicographic `<=` on code-point lists: Python's `<=` on strings.  A strict
prefix is smaller; at the first differing position the smaller code point
decides. -/
def lexLe : List Char → List Char → Bool
  | [], _ => true
  | _ :: _, [] => false
  | c :: cs, d :: ds =>
    if c.toNat < d.toNat then true
    else if d.toNat < c.toNat then false
    else lexLe cs ds

/-- Python's `<=` on strings, by code points. -/
def pyLe (a b : String) : Bool :=
  lexLe a.data b.data

/-- Embeds `MaxarDockWidget._is_date_in_range` (maxar_dock.py lines 592-610):
empty string fails; otherwise compare `datetime_str[:10]` lexicographically
against the two bounds.  Python's `[:10]` on a string shorter than 10
characters returns the whole string, which `sliceTo10` mirrors. -/
def is_date_in_range (datetimeStr startDate endDate : String) : Bool :=
  if datetimeStr = ("") then false
  else pyLe startDate (sliceTo10 datetimeStr) && pyLe (sliceTo10 datetimeStr) endDate

/-! ## DownloadWorker (maxar_dock.py lines 127-203)

The worker loops over `(url, filename, imagery_type)` tasks.  The cancellation
flag `_is_cancelled` is set asynchronously by `cancel()`; the loop reads it at
the top of the task loop, at the top of every chunk iteration, and once more
after the chunk loop.  We model time as a counter of flag reads: the flag is
given as `cT : Option ℕ`, reading `true` at the `cT`-th and every later read
(`none` = never cancelled), which captures every monotone flag schedule. -/

/-- The fixed `chunk_size = 1024 * 1024` (line 173). -/
def chunkSize : ℕ := 1024 * 1024

/-- The sizes successively returned by `response.read(chunk_size)` for a body
that delivers `bytes` bytes: full `chunkSize` chunks, then the remainder. -/
def chunksOf (bytes : ℕ) : List ℕ :=
  List.replicate (bytes / chunkSize) chunkSize ++
    (if bytes % chunkSize = 0 then [] else [bytes % chunkSize])

/-- The cancellation flag as read at flag-read number `t`. -/
def checkFlag (cT : Option ℕ) (t : ℕ) : Bool :=
  match cT with
  | none => false
  | some c => decide (c ≤ t)

/-- One download task, `(url, filename, imagery_type)` plus the behaviour of
its HTTP exchange: `openOk = false` models `urlopen` raising;
`contentLength` the `Content-Length` header; `bodyBytes` the bytes the body
delivers before the stream ends or errors; `readErr = true` models a
mid-stream exception raised by the read after those bytes; `errMsg` the
exception text. -/
structure DlTask where
  url : String
  filename : String
  openOk : Bool
  contentLength : Option ℕ
  bodyBytes : ℕ
  readErr : Bool
  errMsg : String
deriving DecidableEq

/-- How the chunk loop of one task ended. -/
inductive ChunkRes where
  | cancelledBreak
  | ended
  | raised
deriving DecidableEq

/-- Result of the inner chunk loop: final flag-read counter, bytes written to
the file, `file_progress` percentages emitted, and how the loop ended. -/
structure ChunkOut where
  t : ℕ
  downloaded : ℕ
  emitted : List ℕ
  res : ChunkRes
deriving DecidableEq

/-- The inner `while True` loop (lines 176-189): check the flag, read a chunk,
break on an empty chunk, else write it and emit a percentage when the content
length is known.  Python computes `int((downloaded / total_size) * 100)` in
floating point; we embed it as natural floor division. -/
def chunkLoop (cT : Option ℕ) (totalSize : ℕ) (readErr : Bool) :
    List ℕ → ℕ → ℕ → List ℕ → ChunkOut
  | chunks, t, downloaded, emitted =>
    if checkFlag cT t then ⟨t + 1, downloaded, emitted, ChunkRes.cancelledBreak⟩
    else
      match chunks with
      | [] =>
        if readErr then ⟨t + 1, downloaded, emitted, ChunkRes.raised⟩
        else ⟨t + 1, downloaded, emitted, ChunkRes.ended⟩
      | c :: cs =>
        chunkLoop cT totalSize readErr cs (t + 1) (downloaded + c)
          (emitted ++ (if 0 < totalSize then [(downloaded + c) * 100 / totalSize] else []))

/-- Observable fate of one task's output file and bookkeeping:
`completed`/`failedFileKept` carry the bytes left on disk; `removedByCancel`
is the in-flight file deleted at cancellation; `failedNoFile` a task whose
`urlopen` raised before the file was created; `notStarted` a task after the
cancellation point. -/
inductive TaskResult where
  | notStarted
  | completed (bytes : ℕ)
  | removedByCancel
  | failedFileKept (bytes : ℕ)
  | failedNoFile
deriving DecidableEq

/-- State threaded through `DownloadWorker.run`: flag-read counter, the
`success_count`/`failed_count` pair, per-task file fates in task order, all
`file_progress` percentages emitted, and all `error` messages emitted. -/
structure RunState where
  t : ℕ
  succ : ℕ
  fail : ℕ
  results : List TaskResult
  emitted : List ℕ
  errors : List String
deriving DecidableEq

def initState : RunState :=
  ⟨0, 0, 0, [], [], []⟩

/-- The task loop of `DownloadWorker.run` (lines 157-201).  On the boundary
check firing, the loop breaks and the remaining tasks never start.  A failing
task increments `failed_count`, emits its error message and the loop goes on.
After the chunk loop the flag is read once more: if set, the in-flight file is
removed and the loop breaks; on a mid-stream exception that post-loop check is
skipped (it sits inside the `try`) and the partial file stays. -/
def runLoop (cT : Option ℕ) : List DlTask → RunState → RunState
  | [], s => s
  | task :: rest, s =>
    if checkFlag cT s.t then
      { s with
        t := s.t + 1,
        results := s.results ++ List.replicate (rest.length + 1) TaskResult.notStarted }
    else
      if task.openOk then
        let out := chunkLoop cT (task.contentLength.getD 0) task.readErr
          (chunksOf task.bodyBytes) (s.t + 1) 0 []
        match out.res with
        | ChunkRes.raised =>
          runLoop cT rest
            { t := out.t, succ := s.succ, fail := s.fail + 1,
              results := s.results ++ [TaskResult.failedFileKept out.downloaded],
              emitted := s.emitted ++ out.emitted,
              errors := s.errors ++
                ["Failed to download " ++ task.filename ++ ": " ++ task.errMsg] }
        | _ =>
          if checkFlag cT out.t then
            { t := out.t + 1, succ := s.succ, fail := s.fail,
              results := s.results ++
                (TaskResult.removedByCancel ::
                  List.replicate rest.length TaskResult.notStarted),
              emitted := s.emitted ++ out.emitted,
              errors := s.errors }
          else
            runLoop cT rest
              { t := out.t + 1, succ := s.succ + 1, fail := s.fail,
                results := s.results ++ [TaskResult.completed out.downloaded],
                emitted := s.emitted ++ out.emitted,
                errors := s.errors }
      else
        runLoop cT rest
          { s with
            t := s.t + 1,
            fail := s.fail + 1,
            results := s.results ++ [TaskResult.failedNoFile],
            errors := s.errors ++
              ["Failed to download " ++ task.filename ++ ": " ++ task.errMsg] }

/-- Runs `DownloadWorker.run` on a task list, from the initial state. -/
def dlRun (cT : Option ℕ) (tasks : List DlTask) : RunState :=
  runLoop cT tasks initState

/-- A task that downloads without error. -/
def taskOk (tk : DlTask) : Bool :=
  tk.openOk && !tk.readErr

/-- Expected fate of a task's file in an uncancelled run. -/
def outcomeOf (tk : DlTask) : TaskResult :=
  if !tk.openOk then TaskResult.failedNoFile
  else if tk.readErr then TaskResult.failedFileKept tk.bodyBytes
  else TaskResult.completed tk.bodyBytes

/-- The `file_progress` percentages one task's chunk loop emits, given the
declared total size and bytes already downloaded. -/
def percEmits (totalSize : ℕ) : ℕ → List ℕ → List ℕ
  | _, [] => []
  | downloaded, c :: cs =>
    (if 0 < totalSize then [(downloaded + c) * 100 / totalSize] else []) ++
      percEmits totalSize (downloaded + c) cs

/-- The `file_progress` percentages expected of one task in an uncancelled
run. -/
def emitsOf (tk : DlTask) : List ℕ :=
  if tk.openOk then percEmits (tk.contentLength.getD 0) 0 (chunksOf tk.bodyBytes)
  else []

/-- The `error` messages expected of one task in an uncancelled run. -/
def errorsOf (tk : DlTask) : List String :=
  if taskOk tk then []
  else ["Failed to download " ++ tk.filename ++ ": " ++ tk.errMsg]

/-- The files present in the output directory after a run, as
`(task index, bytes)` pairs, read off the per-task file fates starting at task
index `i`. -/
def filesOnDiskFrom (i : ℕ) : List TaskResult → List (ℕ × ℕ)
  | [] => []
  | r :: rs =>
    (match r with
      | TaskResult.completed b => [(i, b)]
      | TaskResult.failedFileKept b => [(i, b)]
      | _ => []) ++ filesOnDiskFrom (i + 1) rs

def filesOnDisk (results : List TaskResult) : List (ℕ × ℕ) :=
  filesOnDiskFrom 0 results

/-- The files expected on disk after an uncancelled run: one per task whose
`urlopen` succeeded (completed or partial), with the bytes it delivered. -/
def expectedDisk (i : ℕ) : List DlTask → List (ℕ × ℕ)
  | [] => []
  | tk :: rest =>
    (if tk.openOk then [(i, tk.bodyBytes)] else []) ++ expectedDisk (i + 1) rest

/-- All `file_progress` percentages of an uncancelled run, in task order. -/
def allEmits : List DlTask → List ℕ
  | [] => []
  | tk :: rest => emitsOf tk ++ allEmits rest

/-- All `error` messages of an uncancelled run, in task order. -/
def allErrors : List DlTask → List String
  | [] => []
  | tk :: rest => errorsOf tk ++ allErrors rest

/-- Flag reads one task consumes in an uncancelled run: one at the task
boundary, one per chunk iteration, one for the final empty read, and one
post-loop read unless the task raised. -/
def ticksOfNone (tk : DlTask) : ℕ :=
  if tk.openOk then
    (if tk.readErr then (chunksOf tk.bodyBytes).length + 2
     else (chunksOf tk.bodyBytes).length + 3)
  else 1

/-- Flag reads a whole uncancelled run consumes. -/
def ticksNone : List DlTask → ℕ
  | [] => 0
  | tk :: rest => ticksOfNone tk + ticksNone rest

/-- The batch of the spec's partial-failure scenario: one invalid URL and four
valid URLs. -/
def fiveBatch : List DlTask :=
  [⟨("http://bad.example/x"), ("f0.tif"), false, none, 0, false, ("HTTP Error 404")⟩,
   ⟨("http://ok.example/1"), ("f1.tif"), true, some 3, 3, false, ("")⟩,
   ⟨("http://ok.example/2"), ("f2.tif"), true, some 3, 3, false, ("")⟩,
   ⟨("http://ok.example/3"), ("f3.tif"), true, none, 3, false, ("")⟩,
   ⟨("http://ok.example/4"), ("f4.tif"), true, some 7, 7, false, ("")⟩]

/-- A batch of three well-behaved tasks, used to witness the cancellation
theorem. -/
def cancelBatch : List DlTask :=
  [⟨("http://a.example/a"), ("a.tif"), true, some 1, 1, false, ("")⟩,
   ⟨("http://b.example/b"), ("b.tif"), true, some 1, 1, false, ("")⟩,
   ⟨("http://c.example/c"), ("c.tif"), true, some 1, 1, false, ("")⟩]

/-! ## Selection synchronisation (maxar_dock.py lines 800-889)

The results table is modelled by the list of original feature indices stored
in `Qt.UserRole` of each row's first item at population time (row `r` of the
table currently shows the feature with index `table[r]`; sorting permutes this
list).  Selections are lists of row indices / feature ids. -/

/-- Table→map: `_on_footprint_selection_changed` collects, for each selected
row, the feature index stored in its first item (rows without a stored index
contribute nothing), and passes the list to `selectByIds`. -/
def tableToMapIds (table : List ℕ) (selRows : List ℕ) : List ℕ :=
  selRows.filterMap (fun r => table.get? r)

/-- The `feature_idx_to_row` dictionary of `_on_layer_selection_changed`,
built by scanning all rows in order, a later row overwriting an earlier one
holding the same feature index. -/
def featureIdxToRow (table : List ℕ) (fid : ℕ) : Option ℕ :=
  (List.range table.length).foldl
    (fun acc r => if table.get? r = some fid then some r else acc) none

/-- Map→table: `_on_layer_selection_changed` clears the table selection and
selects, for each selected feature id found in the dictionary, the
corresponding row. -/
def mapToTableRows (table : List ℕ) (selIds : List ℕ) : List ℕ :=
  selIds.filterMap (featureIdxToRow table)

/-- The widget state the two selection-sync handlers read and write:
the `_updating_selection` guard, validity of the footprints layer, the stored
per-row feature indices, both selections, the enabled state of the seven
action buttons (modelled as one flag) and the status label. -/
structure UiState where
  updatingSelection : Bool
  layerValid : Bool
  table : List ℕ
  tableSel : List ℕ
  layerSel : List ℕ
  actionButtonsEnabled : Bool
  statusText : String
deriving DecidableEq

/-- Embeds `_on_footprint_selection_changed` (lines 800-835).  Button enablement and
the status label are updated unconditionally, before the guard is consulted;
only the map mutation is guarded.  `raises` models `selectByIds` throwing
inside the `try`: the `finally` still clears the guard and the exception
propagates (second component `true`). -/
def onFootprintSelectionChanged (raises : Bool) (st : UiState) : UiState × Bool :=
  let hasSel := !st.tableSel.isEmpty
  let st1 : UiState :=
    { st with
      actionButtonsEnabled := hasSel,
      statusText :=
        if hasSel then toString st.tableSel.length ++ " footprint(s) selected"
        else st.statusText }
  if !st1.updatingSelection && st1.layerValid then
    if raises then ({ st1 with updatingSelection := false }, true)
    else
      ({ st1 with
          layerSel := tableToMapIds st1.table st1.tableSel,
          updatingSelection := false }, false)
  else (st1, false)

/-- Embeds `_on_layer_selection_changed` (lines 837-889): returns immediately when
the guard is set or the layer is gone; otherwise sets the guard, rebuilds the
index→row dictionary, replaces the table selection, and clears the guard in
the `finally` even when the table mutation (`raises`) throws. -/
def onLayerSelectionChanged (raises : Bool) (st : UiState) : UiState × Bool :=
  if st.updatingSelection || !st.layerValid then (st, false)
  else
    if raises then ({ st with updatingSelection := false }, true)
    else
      ({ st with
          tableSel := mapToTableRows st.table st.layerSel,
          updatingSelection := false }, false)

/-! ## DataFetchWorker (maxar_dock.py lines 91-124) -/

/-- A parsed JSON value (the result of `json.loads`). -/
inductive Json where
  | null
  | bool (b : Bool)
  | num (q : ℚ)
  | str (s : String)
  | arr (elems : List Json)
  | obj (members : List (String × Json))

/-- Outcome of the blocking `urlopen(...).read().decode("utf-8")` exchange:
body text, an `HTTPError`, a `URLError`, or any other exception. -/
inductive FetchNet where
  | ok (body : String)
  | httpErr (code : ℕ) (reason : String)
  | urlErr (reason : String)
  | otherErr (msg : String)

/-- The single signal `DataFetchWorker.run` emits: `finished` with raw text,
`finished` with a parsed JSON value, or `error` with a message. -/
inductive FetchEmit where
  | finishedText (s : String)
  | finishedJson (j : Json)
  | errorMsg (m : String)

/-- Embeds `DataFetchWorker.run` (lines 103-124).  `parse` embeds `json.loads`
(returning the parse-error text on failure); `dataType` is the worker's
`data_type` argument. -/
def dataFetchRun (parse : String → Except String Json) (net : FetchNet)
    (dataType : String) : FetchEmit :=
  match net with
  | FetchNet.ok body =>
    if dataType = ("json") then
      match parse body with
      | Except.ok j => FetchEmit.finishedJson j
      | Except.error e => FetchEmit.errorMsg ("JSON Parse Error: " ++ e)
    else FetchEmit.finishedText body
  | FetchNet.httpErr code reason =>
    FetchEmit.errorMsg ("HTTP Error: " ++ toString code ++ " - " ++ reason)
  | FetchNet.urlErr reason => FetchEmit.errorMsg ("URL Error: " ++ reason)
  | FetchNet.otherErr msg => FetchEmit.errorMsg ("Error fetching data: " ++ msg)

/-! ## Dock-widget state touched by the fetch callbacks
(maxar_dock.py lines 457-496, 548-623, 693-747) -/

/-- The dock state the fetch callbacks read and write: the events list, the
rows of the footprints table, the footprints layer present in the project
(with its features), the status label, progress-bar visibility, the two
buttons, and the message boxes shown to the user. -/
structure DockState where
  events : List (String × ℕ)
  tableFeatures : List Feature
  projectFootprintsLayer : Option (List Feature)
  statusText : String
  progressVisible : Bool
  refreshBtnEnabled : Bool
  loadFootprintsBtnEnabled : Bool
  userMessages : List String
deriving DecidableEq

/-- Embeds `_on_footprints_error` (lines 612-623): progress bar off, button back on,
status label set, one warning box; nothing else touched. -/
def onFootprintsError (st : DockState) (msg : String) : DockState :=
  { st with
    progressVisible := false,
    loadFootprintsBtnEnabled := true,
    statusText := ("Error: ") ++ msg,
    userMessages := st.userMessages ++ [("Failed to load footprints:\n\n") ++ msg] }

/-- Embeds `_on_events_error` (lines 484-496). -/
def onEventsError (st : DockState) (msg : String) : DockState :=
  { st with
    progressVisible := false,
    refreshBtnEnabled := true,
    statusText := ("Error: ") ++ msg,
    userMessages := st.userMessages ++
      [("Failed to load events from GitHub:\n\n") ++ msg ++
        ("\n\nPlease check your internet connection and try again.")] }

/-- Embeds `_add_footprints_layer` (lines 693-747): the existing footprints layer is
removed from the project first; the freshly created layer is added only when
valid, else a warning box is shown. -/
def addFootprintsLayer (st : DockState) (features : List Feature)
    (layerValid : Bool) : DockState :=
  let st1 := { st with projectFootprintsLayer := none }
  if layerValid then { st1 with projectFootprintsLayer := some features }
  else
    { st1 with
      userMessages := st1.userMessages ++ [("Failed to create footprints layer.")] }

/-- The filter pipeline of `_on_footprints_loaded` (lines 556-574): cloud
filter, then the optional date filter over the `datetime` property. -/
def applyFilters (features : List Feature) (maxCloud : ℕ)
    (dateFilter : Option (String × String)) : List Feature :=
  let cloudFiltered := cloudFilter maxCloud features
  match dateFilter with
  | some (sd, ed) =>
    cloudFiltered.filter (fun f => is_date_in_range (f.datetime.getD ("")) sd ed)
  | none => cloudFiltered

/-- Embeds `_on_footprints_loaded` (lines 548-590): filter, repopulate the table,
replace the layer (via `_add_footprints_layer`, whose validity outcome is
`layerValid`), and set the status label. -/
def onFootprintsLoaded (st : DockState) (features : List Feature) (maxCloud : ℕ)
    (dateFilter : Option (String × String)) (layerValid : Bool) : DockState :=
  let filtered := applyFilters features maxCloud dateFilter
  let st1 :=
    { st with
      progressVisible := false,
      loadFootprintsBtnEnabled := true,
      tableFeatures := filtered }
  let st2 := addFootprintsLayer st1 filtered layerValid
  { st2 with
    statusText :=
      ("Loaded ") ++ toString filtered.length ++ (" footprints (filtered from ") ++
        toString features.length ++ (" total)") }

/-- C1: the cloud filter keeps exactly the features whose cloud-cover property
(defaulted to 0 when missing) is at most the threshold, and a feature missing
the property always passes. -/
theorem cloud_filter_membership (features : List Feature) (T : ℕ) :
    (∀ f : Feature, f ∈ cloudFilter T features ↔
        f ∈ features ∧ cloudsPercentOrZero f ≤ (T : ℚ)) ∧
    (∀ f : Feature, f.cloudsPercent = none → f ∈ features →
        f ∈ cloudFilter T features) := by
  constructor
  · intro f
    simp [cloudFilter, List.mem_filter]
  · intro f hnone hf
    have hz : cloudsPercentOrZero f = 0 := by
      simp [cloudsPercentOrZero, hnone]
    simp [cloudFilter, List.mem_filter, hf, hz]

/-- Witness for `cloud_filter_membership`: a feature with no cloud-cover
property passes the filter even at threshold 0. -/
theorem cloud_filter_membership_witness :
    Feature.mk none none ∈ cloudFilter 0 [Feature.mk none none] :=
  (cloud_filter_membership [Feature.mk none none] 0).2 (Feature.mk none none) rfl
    (List.mem_singleton.mpr rfl)

/-- C2, counterexample: a nonempty datetime shorter than 10 characters can pass
the date filter, contradicting the claim that it always fails: Python's
`[:10]` slice of `"2023-10-2"` is the whole 9-character string, which lies
lexicographically between the bounds. -/
theorem date_filter_short_nonempty_passes :
    is_date_in_range ("2023-10-2") ("2023-01-01") ("2023-12-31") = true ∧
    String.length ("2023-10-2") < 10 := by
  constructor
  · decide
  · decide

/-- C2, amended: a feature passes iff its datetime is nonempty and its first
`min 10 length` characters lie lexicographically within the closed range; the
empty string always fails, but a shorter-than-10 nonempty string is compared
as-is and can pass. -/
theorem date_filter_characterization (s a b : String) :
    is_date_in_range s a b = true ↔
      (s ≠ ("") ∧ pyLe a (sliceTo10 s) = true ∧ pyLe (sliceTo10 s) b = true) := by
  unfold is_date_in_range
  by_cases h : s = ("")
  · simp [h]
  · simp [h, and_assoc]

/-- The flag, once read as set, stays set at every later read. -/
theorem checkFlag_mono {cT : Option ℕ} {t t' : ℕ} (h : checkFlag cT t = true)
    (hle : t ≤ t') : checkFlag cT t' = true := by
  cases cT with
  | none => simp [checkFlag] at h
  | some c =>
    simp only [checkFlag, decide_eq_true_eq] at h ⊢
    omega

/-- When the worker is never cancelled, the chunk loop writes the whole body,
emits the percentage trace, and ends by exhaustion or by raising. -/
theorem chunkLoop_none (ts : ℕ) (re : Bool) (chunks : List ℕ) (t d : ℕ) (e : List ℕ) :
    chunkLoop none ts re chunks t d e =
      ⟨t + chunks.length + 1, d + chunks.sum, e ++ percEmits ts d chunks,
        if re then ChunkRes.raised else ChunkRes.ended⟩ := by
  induction chunks generalizing t d e with
  | nil => cases re <;> simp [chunkLoop, checkFlag, percEmits]
  | cons c cs ih =>
    simp only [chunkLoop, checkFlag, Bool.false_eq_true, if_false, ih,
      percEmits, List.append_assoc, List.length_cons, List.sum_cons,
      ChunkOut.mk.injEq]
    refine ⟨by omega, by omega, by simp⟩

/-- Behaviour of the chunk loop under an arbitrary cancellation schedule:
a cancelled break leaves the flag set at the final read; a raise needs
`readErr`; a natural end has written the whole body. -/
theorem chunkLoop_spec (cT : Option ℕ) (ts : ℕ) (re : Bool) (chunks : List ℕ)
    (t d : ℕ) (e : List ℕ) :
    ((chunkLoop cT ts re chunks t d e).res = ChunkRes.cancelledBreak →
      checkFlag cT (chunkLoop cT ts re chunks t d e).t = true) ∧
    ((chunkLoop cT ts re chunks t d e).res = ChunkRes.raised → re = true) ∧
    ((chunkLoop cT ts re chunks t d e).res = ChunkRes.ended →
      (chunkLoop cT ts re chunks t d e).downloaded = d + chunks.sum) := by
  induction chunks generalizing t d e with
  | nil =>
    by_cases h : checkFlag cT t = true
    · refine ⟨fun _ => ?_, ?_, ?_⟩ <;> simp [chunkLoop, h]
      exact checkFlag_mono h (Nat.le_succ t)
    · cases re <;> simp [chunkLoop, h]
  | cons c cs ih =>
    by_cases h : checkFlag cT t = true
    · refine ⟨fun _ => ?_, ?_, ?_⟩ <;> simp [chunkLoop, h]
      exact checkFlag_mono h (Nat.le_succ t)
    · have := ih (t + 1) (d + c)
        (e ++ (if 0 < ts then [(d + c) * 100 / ts] else []))
      simp only [chunkLoop, h, Bool.false_eq_true, if_false, List.sum_cons]
      refine ⟨this.1, this.2.1, fun hr => ?_⟩
      have := this.2.2 hr
      omega

/-- The chunk stream of a body adds up to the whole body. -/
theorem chunksOf_sum (b : ℕ) : (chunksOf b).sum = b := by
  unfold chunksOf chunkSize
  by_cases h : b % (1024 * 1024) = 0 <;>
    simp [h, List.sum_replicate, smul_eq_mul] <;> omega

/-- An uncancelled run processes every task: each task contributes its own
outcome, counts, progress emissions and error messages, independently of the
other tasks. -/
theorem runLoop_none (tasks : List DlTask) (s : RunState) :
    runLoop none tasks s =
      { t := s.t + ticksNone tasks,
        succ := s.succ + (tasks.filter taskOk).length,
        fail := s.fail + (tasks.filter (fun tk => !taskOk tk)).length,
        results := s.results ++ tasks.map outcomeOf,
        emitted := s.emitted ++ allEmits tasks,
        errors := s.errors ++ allErrors tasks } := by
  induction tasks generalizing s with
  | nil =>
    obtain ⟨t0, sc, fl, rs, em, er⟩ := s
    simp [runLoop, ticksNone, allEmits, allErrors]
  | cons task rest ih =>
    obtain ⟨t0, sc, fl, rs, em, er⟩ := s
    by_cases hop : task.openOk = true
    · by_cases hre : task.readErr = true
      · simp only [runLoop, checkFlag, Bool.false_eq_true, if_false, hop, if_true,
          chunkLoop_none, hre, ih]
        simp [taskOk, outcomeOf, emitsOf, errorsOf, allEmits, allErrors,
          ticksNone, ticksOfNone, List.filter_cons, hop, hre, chunksOf_sum,
          List.append_assoc, RunState.mk.injEq]
        omega
      · simp only [runLoop, checkFlag, Bool.false_eq_true, if_false, hop, if_true,
          chunkLoop_none, hre, ih]
        simp [taskOk, outcomeOf, emitsOf, errorsOf, allEmits, allErrors,
          ticksNone, ticksOfNone, List.filter_cons, hop, hre, chunksOf_sum,
          List.append_assoc, RunState.mk.injEq]
        omega
    · simp only [runLoop, checkFlag, Bool.false_eq_true, if_false, hop, ih]
      simp [taskOk, outcomeOf, emitsOf, errorsOf, allEmits, allErrors,
        ticksNone, ticksOfNone, List.filter_cons, hop,
        List.append_assoc, RunState.mk.injEq]
      omega

/-- C3: per-file failures are counted and reported but never abort the rest of
the queue: in an uncancelled run every task is processed, the terminal pair is
(number of good tasks, number of failing tasks), each failing task's error is
emitted in task order, and the spec's 1-bad-4-good batch ends with
`success_count = 4`, `failed_count = 1`. -/
theorem download_failures_do_not_abort (tasks : List DlTask) :
    (dlRun none tasks).succ = (tasks.filter taskOk).length ∧
    (dlRun none tasks).fail = (tasks.filter (fun tk => !taskOk tk)).length ∧
    (dlRun none tasks).results = tasks.map outcomeOf ∧
    (dlRun none tasks).errors = allErrors tasks ∧
    (dlRun none fiveBatch).succ = 4 ∧
    (dlRun none fiveBatch).fail = 1 := by
  refine ⟨?_, ?_, ?_, ?_, by decide, by decide⟩ <;>
    simp [dlRun, runLoop_none, initState]

/-- Reading the disk off the expected per-task outcomes of an uncancelled
run gives one file per task that opened its connection. -/
theorem filesOnDiskFrom_map_outcome (tasks : List DlTask) (i : ℕ) :
    filesOnDiskFrom i (tasks.map outcomeOf) = expectedDisk i tasks := by
  induction tasks generalizing i with
  | nil => simp [filesOnDiskFrom, expectedDisk]
  | cons tk rest ih =>
    by_cases hop : tk.openOk = true
    · by_cases hre : tk.readErr = true <;>
        simp [filesOnDiskFrom, expectedDisk, outcomeOf, hop, hre, ih]
    · simp [filesOnDiskFrom, expectedDisk, outcomeOf, hop, ih]

/-- C10: in an uncancelled run a task that raises mid-stream is recorded as
`failedFileKept` with the bytes it wrote, and the disk afterwards holds a file
for every task that opened its connection — partial files of failed tasks
included; cleanup happens only on cancellation. -/
theorem download_error_keeps_partial_file (tasks : List DlTask) :
    (dlRun none tasks).results = tasks.map outcomeOf ∧
    filesOnDisk ((dlRun none tasks).results) = expectedDisk 0 tasks := by
  constructor
  · simp [dlRun, runLoop_none, initState]
  · simp [dlRun, runLoop_none, initState, filesOnDisk, filesOnDiskFrom_map_outcome]

/-- With an unknown (or zero) total size no percentage is ever emitted. -/
theorem percEmits_zero (d : ℕ) (chunks : List ℕ) :
    percEmits 0 d chunks = [] := by
  induction chunks generalizing d <;> simp [percEmits, *]

/-- C8, counterexample: a task whose response has no `Content-Length` writes
its 5-byte body in one chunk yet emits no `file_progress` percentage at all —
in particular it does not report 0. -/
theorem file_progress_silent_without_content_length :
    (dlRun none
        [⟨("http://u.example/f"), ("f.tif"), true, none, 5, false, ("")⟩]).emitted
      = [] ∧
    chunksOf 5 = [5] := by
  constructor
  · decide
  · decide

/-- C8, amended: the body is read in chunks of at most 1 MiB summing to the
whole body; with `Content-Length = L` present the emitted percentages are
`downloaded * 100 / L` after each chunk, and with the header absent nothing is
emitted. -/
theorem download_chunking_and_file_progress (url fn msg : String) (L bb : ℕ) :
    (chunksOf bb).sum = bb ∧
    (chunksOf bb).all (fun c => decide (c ≤ chunkSize)) = true ∧
    (dlRun none [⟨url, fn, true, some L, bb, false, msg⟩]).emitted =
      percEmits L 0 (chunksOf bb) ∧
    (dlRun none [⟨url, fn, true, none, bb, false, msg⟩]).emitted = [] := by
  refine ⟨chunksOf_sum bb, ?_, ?_, ?_⟩
  · rw [List.all_eq_true]
    intro c hc
    rw [chunksOf, List.mem_append] at hc
    rcases hc with hmem | hmem
    · simp [List.eq_of_mem_replicate hmem]
    · by_cases hm : bb % chunkSize = 0
      · simp [hm] at hmem
      · simp [hm] at hmem
        subst hmem
        simp only [decide_eq_true_eq]
        exact Nat.le_of_lt (Nat.mod_lt bb (by norm_num [chunkSize]))
  · simp [dlRun, runLoop_none, initState, allEmits, emitsOf]
  · simp [dlRun, runLoop_none, initState, allEmits, emitsOf, percEmits_zero]

/-- A stretch of `notStarted`/`removedByCancel` fates contributes no file. -/
theorem filesOnDiskFrom_no_files (tail : List TaskResult) (i : ℕ)
    (htail : ∀ r ∈ tail, r = TaskResult.notStarted ∨ r = TaskResult.removedByCancel) :
    filesOnDiskFrom i tail = [] := by
  induction tail generalizing i with
  | nil => simp [filesOnDiskFrom]
  | cons r rs ih =>
    have hr := htail r (List.mem_cons_self r rs)
    have hrs : ∀ x ∈ rs, x = TaskResult.notStarted ∨ x = TaskResult.removedByCancel :=
      fun x hx => htail x (List.mem_cons_of_mem r hx)
    rcases hr with hr | hr <;> subst hr <;> simp [filesOnDiskFrom, ih _ hrs]

/-- The disk after a completed prefix followed by cancelled/unstarted tasks
holds exactly the prefix's files. -/
theorem filesOnDiskFrom_valid (tks : List DlTask) (tail : List TaskResult) (i : ℕ)
    (hop : ∀ tk ∈ tks, tk.openOk = true)
    (htail : ∀ r ∈ tail, r = TaskResult.notStarted ∨ r = TaskResult.removedByCancel) :
    filesOnDiskFrom i (tks.map (fun tk => TaskResult.completed tk.bodyBytes) ++ tail) =
      expectedDisk i tks := by
  induction tks generalizing i with
  | nil => simpa [expectedDisk] using filesOnDiskFrom_no_files tail i htail
  | cons tk rest ih =>
    have h1 := hop tk (List.mem_cons_self tk rest)
    have h2 : ∀ x ∈ rest, x.openOk = true :=
      fun x hx => hop x (List.mem_cons_of_mem tk hx)
    simp [filesOnDiskFrom, expectedDisk, h1]
    exact ih (i + 1) h2

/-- Under any cancellation schedule, a run over well-behaved tasks completes
some prefix of `k` tasks and the per-task fates are the completed prefix
followed either by untouched tasks (cancellation seen at a task boundary, or
no cancellation) or by the removed in-flight file and untouched tasks. -/
theorem runLoop_valid (cT : Option ℕ) (tasks : List DlTask) (s : RunState)
    (h : ∀ tk ∈ tasks, tk.openOk = true ∧ tk.readErr = false) :
    ∃ k tN em2 tail, k ≤ tasks.length ∧
      runLoop cT tasks s =
        { t := tN, succ := s.succ + k, fail := s.fail,
          results := s.results ++
            ((tasks.take k).map (fun tk => TaskResult.completed tk.bodyBytes) ++ tail),
          emitted := em2, errors := s.errors } ∧
      (tail = List.replicate (tasks.length - k) TaskResult.notStarted ∨
        tail = TaskResult.removedByCancel ::
          List.replicate (tasks.length - k - 1) TaskResult.notStarted) := by
  revert h
  induction tasks generalizing s with
  | nil =>
    intro _
    obtain ⟨t0, sc, fl, rs, em, er⟩ := s
    exact ⟨0, t0, em, [], Nat.le_refl 0, by simp [runLoop], Or.inl (by simp)⟩
  | cons task rest ih =>
    intro h
    obtain ⟨hop, hre⟩ := h task (List.mem_cons_self task rest)
    have hrest : ∀ tk ∈ rest, tk.openOk = true ∧ tk.readErr = false :=
      fun tk htk => h tk (List.mem_cons_of_mem task htk)
    obtain ⟨t0, sc, fl, rs, em, er⟩ := s
    by_cases hflag : checkFlag cT t0 = true
    · refine ⟨0, t0 + 1, em,
        List.replicate (rest.length + 1) TaskResult.notStarted,
        Nat.zero_le _, ?_, Or.inl (by simp)⟩
      simp [runLoop, hflag]
    · rcases hout : chunkLoop cT (task.contentLength.getD 0) task.readErr
        (chunksOf task.bodyBytes) (t0 + 1) 0 [] with ⟨ot, od, oe, ores⟩
      have hspec := chunkLoop_spec cT (task.contentLength.getD 0) task.readErr
        (chunksOf task.bodyBytes) (t0 + 1) 0 []
      rw [hout] at hspec
      cases ores with
      | raised =>
        have : task.readErr = true := hspec.2.1 rfl
        rw [hre] at this
        exact absurd this (by simp)
      | cancelledBreak =>
        have hpost : checkFlag cT ot = true := hspec.1 rfl
        refine ⟨0, ot + 1, em ++ oe,
          TaskResult.removedByCancel ::
            List.replicate rest.length TaskResult.notStarted,
          Nat.zero_le _, ?_, Or.inr (by simp)⟩
        simp [runLoop, hflag, hop, hout, hpost]
      | ended =>
        by_cases hpost : checkFlag cT ot = true
        · refine ⟨0, ot + 1, em ++ oe,
            TaskResult.removedByCancel ::
              List.replicate rest.length TaskResult.notStarted,
            Nat.zero_le _, ?_, Or.inr (by simp)⟩
          simp [runLoop, hflag, hop, hout, hpost]
        · have hod : od = task.bodyBytes := by
            have := hspec.2.2 rfl
            simpa [chunksOf_sum] using this
          obtain ⟨k, tN, em2, tail, hk, heq, htail⟩ :=
            ih ⟨ot + 1, sc + 1, fl, rs ++ [TaskResult.completed od],
              em ++ oe, er⟩ hrest
          refine ⟨k + 1, tN, em2, tail, Nat.succ_le_succ hk, ?_, ?_⟩
          · have hstep : runLoop cT (task :: rest) ⟨t0, sc, fl, rs, em, er⟩ =
                runLoop cT rest ⟨ot + 1, sc + 1, fl,
                  rs ++ [TaskResult.completed od], em ++ oe, er⟩ := by
              simp [runLoop, hflag, hop, hout, hpost]
            rw [hstep, heq]
            simp [List.take_succ_cons, hod, List.append_assoc, RunState.mk.injEq]
            omega
          · rcases htail with h1 | h1
            · left
              rw [h1]
              simp [Nat.succ_sub_succ]
            · right
              rw [h1]
              simp [Nat.succ_sub_succ]

/-- C4: under any cancellation schedule over well-behaved tasks, some prefix of
`k` tasks completes, the run reports `k` successes and no failure, the fates
are the completed prefix followed either by untouched tasks or by the removed
in-flight file and untouched tasks, and the disk holds exactly the `k`
completed files — no task beyond the cancellation point is started and the
in-flight file is deleted. -/
theorem download_cancellation_bounded (cT : Option ℕ) (tasks : List DlTask)
    (h : ∀ tk ∈ tasks, tk.openOk = true ∧ tk.readErr = false) :
    ∃ k, k ≤ tasks.length ∧
      (dlRun cT tasks).succ = k ∧
      (dlRun cT tasks).fail = 0 ∧
      ((dlRun cT tasks).results =
          (tasks.take k).map (fun tk => TaskResult.completed tk.bodyBytes) ++
            List.replicate (tasks.length - k) TaskResult.notStarted ∨
        (dlRun cT tasks).results =
          (tasks.take k).map (fun tk => TaskResult.completed tk.bodyBytes) ++
            TaskResult.removedByCancel ::
              List.replicate (tasks.length - k - 1) TaskResult.notStarted) ∧
      filesOnDisk ((dlRun cT tasks).results) = expectedDisk 0 (tasks.take k) := by
  obtain ⟨k, tN, em2, tail, hk, heq, htail⟩ := runLoop_valid cT tasks initState h
  have hdl : dlRun cT tasks =
      { t := tN, succ := k, fail := 0,
        results :=
          (tasks.take k).map (fun tk => TaskResult.completed tk.bodyBytes) ++ tail,
        emitted := em2, errors := [] } := by
    unfold dlRun
    rw [heq]
    simp [initState]
  have hres : (dlRun cT tasks).results =
      (tasks.take k).map (fun tk => TaskResult.completed tk.bodyBytes) ++ tail := by
    rw [hdl]
  refine ⟨k, hk, by rw [hdl], by rw [hdl], ?_, ?_⟩
  · rcases htail with h1 | h1
    · left
      rw [hres, h1]
    · right
      rw [hres, h1]
  · rw [hres, filesOnDisk]
    apply filesOnDiskFrom_valid
    · intro tk htk
      exact (h tk (List.take_subset k tasks htk)).1
    · rcases htail with h1 | h1 <;> subst h1 <;> intro r hr
      · exact Or.inl (List.eq_of_mem_replicate hr)
      · rcases List.mem_cons.mp hr with hr | hr
        · exact Or.inr hr
        · exact Or.inl (List.eq_of_mem_replicate hr)

/-- Witness for `download_cancellation_bounded`: a three-task batch cancelled
while the second task is in flight. -/
theorem download_cancellation_bounded_witness :
    (∀ tk ∈ cancelBatch, tk.openOk = true ∧ tk.readErr = false) ∧
    (∃ k, k ≤ cancelBatch.length ∧
      (dlRun (some 5) cancelBatch).succ = k ∧
      (dlRun (some 5) cancelBatch).fail = 0 ∧
      ((dlRun (some 5) cancelBatch).results =
          (cancelBatch.take k).map (fun tk => TaskResult.completed tk.bodyBytes) ++
            List.replicate (cancelBatch.length - k) TaskResult.notStarted ∨
        (dlRun (some 5) cancelBatch).results =
          (cancelBatch.take k).map (fun tk => TaskResult.completed tk.bodyBytes) ++
            TaskResult.removedByCancel ::
              List.replicate (cancelBatch.length - k - 1) TaskResult.notStarted) ∧
      filesOnDisk ((dlRun (some 5) cancelBatch).results) =
        expectedDisk 0 (cancelBatch.take k)) :=
  ⟨by decide, download_cancellation_bounded (some 5) cancelBatch (by decide)⟩

/-- The row-scanning fold finds the unique row holding a feature index. -/
theorem range_foldl_finds (table : List ℕ) (fid r : ℕ)
    (huniq : ∀ r', table.get? r' = some fid → r' = r)
    (hget : table.get? r = some fid) :
    ∀ (n : ℕ) (acc : Option ℕ), r < n →
      (List.range n).foldl
        (fun a x => if table.get? x = some fid then some x else a) acc = some r := by
  intro n
  induction n with
  | zero => intro acc h; omega
  | succ m ih =>
    intro acc hr
    rw [List.range_succ, List.foldl_append]
    simp only [List.foldl_cons, List.foldl_nil]
    by_cases hm : table.get? m = some fid
    · rw [if_pos hm]
      exact congrArg some (huniq m hm)
    · rw [if_neg hm]
      have hrm : r < m := by
        rcases Nat.lt_succ_iff_lt_or_eq.mp hr with h | h
        · exact h
        · exact absurd (h ▸ hget) hm
      exact ih acc hrm

/-- On a table whose stored feature indices are pairwise distinct, the
rebuilt dictionary inverts the stored correlation. -/
theorem featureIdxToRow_inverse (table : List ℕ) (hnd : table.Nodup)
    (r fid : ℕ) (hget : table.get? r = some fid) :
    featureIdxToRow table fid = some r := by
  have hr : r < table.length := (List.get?_eq_some.mp hget).1
  refine range_foldl_finds table fid r ?_ hget table.length none hr
  intro r' hget'
  have hr' : r' < table.length := (List.get?_eq_some.mp hget').1
  exact List.get?_inj hr' hnd (hget'.trans hget.symm)

/-- Round trip through both correlation maps is the identity on in-range
rows. -/
theorem filterMap_roundtrip (table : List ℕ) (hnd : table.Nodup) :
    ∀ (R : List ℕ), (∀ r ∈ R, r < table.length) →
      R.filterMap (fun r => (table.get? r).bind (featureIdxToRow table)) = R := by
  intro R
  induction R with
  | nil => intro _; rfl
  | cons r rs ih =>
    intro hR
    have hr : r < table.length := hR r (List.mem_cons_self r rs)
    have hv : table.get? r = some (table.get ⟨r, hr⟩) := List.get?_eq_get hr
    rw [List.filterMap_cons, hv]
    simp only [Option.some_bind]
    rw [featureIdxToRow_inverse table hnd r (table.get ⟨r, hr⟩) hv]
    exact congrArg (r :: ·) (ih (fun x hx => hR x (List.mem_cons_of_mem r hx)))

/-- C5: with pairwise-distinct stored feature indices (as at population time,
and preserved by any re-sort), the table→map sync selects exactly the feature
indices stored in the selected rows, and the map→table sync applied to that
very feature set selects exactly the original rows again, whatever the current
row order of the table. -/
theorem selection_sync_round_trip (table : List ℕ) (R : List ℕ)
    (hnd : table.Nodup) (hR : ∀ r ∈ R, r < table.length) :
    (∀ i : ℕ, i ∈ tableToMapIds table R ↔ ∃ r ∈ R, table.get? r = some i) ∧
    mapToTableRows table (tableToMapIds table R) = R := by
  constructor
  · intro i
    simp [tableToMapIds, List.mem_filterMap]
  · unfold mapToTableRows tableToMapIds
    rw [List.filterMap_filterMap]
    exact filterMap_roundtrip table hnd R hR

/-- Witness for `selection_sync_round_trip`: a 3-row table sorted into the
order 2,0,1 with rows 0 and 2 selected. -/
theorem selection_sync_round_trip_witness :
    mapToTableRows [2, 0, 1] (tableToMapIds [2, 0, 1] [0, 2]) = [0, 2] :=
  (selection_sync_round_trip [2, 0, 1] [0, 2] (by decide) (by decide)).2

/-- C6, counterexample: invoked with the `_updating_selection` guard already
set (as happens when the map→table sync clears and re-selects table rows), the
table-side handler does not no-op: it still changes the widget state, here
disabling the action buttons after a cleared selection. -/
theorem table_handler_acts_with_guard_set :
    (onFootprintSelectionChanged false
        ⟨true, true, [0], [], [0], true, ("Ready")⟩).1 ≠
      ⟨true, true, [0], [], [0], true, ("Ready")⟩ ∧
    (⟨true, true, [0], [], [0], true, ("Ready")⟩ : UiState).updatingSelection
      = true := by
  constructor
  · decide
  · rfl

/-- C6, amended: the map→table handler returns immediately, changing nothing,
when the guard is set; the table→map handler always refreshes button
enablement and status but leaves both selections and the guard untouched when
the guard is set; and whenever a handler runs with the guard clear it leaves
the guard clear again afterwards, also when the guarded mutation raises
(the `finally`). -/
theorem selection_guard_discipline :
    (∀ (raises : Bool) (st : UiState), st.updatingSelection = true →
        onLayerSelectionChanged raises st = (st, false)) ∧
    (∀ (raises : Bool) (st : UiState), st.updatingSelection = true →
        (onFootprintSelectionChanged raises st).1.layerSel = st.layerSel ∧
        (onFootprintSelectionChanged raises st).1.tableSel = st.tableSel ∧
        (onFootprintSelectionChanged raises st).1.updatingSelection = true) ∧
    (∀ (raises : Bool) (st : UiState), st.updatingSelection = false →
        (onFootprintSelectionChanged raises st).1.updatingSelection = false ∧
        (onLayerSelectionChanged raises st).1.updatingSelection = false) := by
  refine ⟨?_, ?_, ?_⟩
  · intro raises st h
    simp [onLayerSelectionChanged, h]
  · intro raises st h
    simp [onFootprintSelectionChanged, h]
  · intro raises st h
    cases raises <;> by_cases hv : st.layerValid = true <;>
      simp [onFootprintSelectionChanged, onLayerSelectionChanged, h, hv]

/-- Witness for `selection_guard_discipline` at concrete states. -/
theorem selection_guard_discipline_witness :
    onLayerSelectionChanged false ⟨true, true, [], [], [], false, ("s")⟩ =
      (⟨true, true, [], [], [], false, ("s")⟩, false) ∧
    (onFootprintSelectionChanged false
        ⟨false, true, [0], [0], [], false, ("s")⟩).1.updatingSelection = false :=
  ⟨(selection_guard_discipline).1 false ⟨true, true, [], [], [], false, ("s")⟩ rfl,
    ((selection_guard_discipline).2.2 false
      ⟨false, true, [0], [0], [], false, ("s")⟩ rfl).1⟩

/-- C7: one run of the catalog fetcher delivers exactly one outcome per
network result and declared kind: raw text on success in text mode, the parsed
value on success in JSON mode, and on failure one error message whose prefix
distinguishes HTTP status errors, connection failures, JSON parse failures,
and the generic catch-all. -/
theorem data_fetch_outcomes (parse : String → Except String Json)
    (body reason msg e dt : String) (code : ℕ) (j : Json) :
    (dataFetchRun parse (FetchNet.ok body) ("text") = FetchEmit.finishedText body) ∧
    (parse body = Except.ok j →
      dataFetchRun parse (FetchNet.ok body) ("json") = FetchEmit.finishedJson j) ∧
    (parse body = Except.error e →
      dataFetchRun parse (FetchNet.ok body) ("json") =
        FetchEmit.errorMsg (("JSON Parse Error: ") ++ e)) ∧
    (dataFetchRun parse (FetchNet.httpErr code reason) dt =
      FetchEmit.errorMsg (("HTTP Error: ") ++ toString code ++ (" - ") ++ reason)) ∧
    (dataFetchRun parse (FetchNet.urlErr reason) dt =
      FetchEmit.errorMsg (("URL Error: ") ++ reason)) ∧
    (dataFetchRun parse (FetchNet.otherErr msg) dt =
      FetchEmit.errorMsg (("Error fetching data: ") ++ msg)) := by
  refine ⟨rfl, ?_, ?_, rfl, rfl, rfl⟩
  · intro h
    simp [dataFetchRun, h]
  · intro h
    simp [dataFetchRun, h]

/-- Witness for `data_fetch_outcomes` with a concrete parse function. -/
theorem data_fetch_outcomes_witness :
    (dataFetchRun (fun s => if s = ("null") then Except.ok Json.null
        else Except.error ("Expecting value"))
      (FetchNet.ok ("null")) ("json") = FetchEmit.finishedJson Json.null) ∧
    (dataFetchRun (fun s => if s = ("null") then Except.ok Json.null
        else Except.error ("Expecting value"))
      (FetchNet.ok ("not json")) ("json") =
        FetchEmit.errorMsg (("JSON Parse Error: ") ++ ("Expecting value"))) :=
  ⟨(data_fetch_outcomes _ ("null") ("r") ("m") ("e") ("json") 404 Json.null).2.1
      (by simp),
    (data_fetch_outcomes _ ("not json") ("r") ("m") ("Expecting value") ("json") 404
        Json.null).2.2.1 (by simp)⟩

/-- C9, counterexample: a layer-creation failure does not leave prior state
untouched.  Starting from a dock showing one old feature in the table and an
old footprints layer in the project, a successful fetch whose layer creation
fails ends with the table replaced by the new filtered features and the old
layer removed from the project (and no new one added), alongside the warning
box. -/
theorem layer_error_replaces_state :
    (onFootprintsLoaded
        ⟨[(("event1"), 3)], [⟨some 1, none⟩], some [⟨some 1, none⟩], ("Ready"),
          false, true, true, []⟩
        [⟨none, none⟩] 100 none false).tableFeatures ≠ [⟨some 1, none⟩] ∧
    (onFootprintsLoaded
        ⟨[(("event1"), 3)], [⟨some 1, none⟩], some [⟨some 1, none⟩], ("Ready"),
          false, true, true, []⟩
        [⟨none, none⟩] 100 none false).projectFootprintsLayer
      ≠ some [⟨some 1, none⟩] ∧
    (onFootprintsLoaded
        ⟨[(("event1"), 3)], [⟨some 1, none⟩], some [⟨some 1, none⟩], ("Ready"),
          false, true, true, []⟩
        [⟨none, none⟩] 100 none false).userMessages
      = [("Failed to create footprints layer.")] := by
  refine ⟨by decide, by decide, by decide⟩

/-- C9, amended: the network/parse error callbacks of both fetches surface a
user-visible message and leave the events list, the table contents and the
footprints layer exactly as they were; a layer-creation failure also surfaces
a message, but it occurs after the table has been replaced and the prior layer
removed, so only the fetch-error paths preserve prior state. -/
theorem fetch_error_frame (st : DockState) (msg : String)
    (features : List Feature) (maxCloud : ℕ) (df : Option (String × String)) :
    ((onFootprintsError st msg).events = st.events ∧
      (onFootprintsError st msg).tableFeatures = st.tableFeatures ∧
      (onFootprintsError st msg).projectFootprintsLayer =
        st.projectFootprintsLayer ∧
      (onFootprintsError st msg).userMessages =
        st.userMessages ++ [("Failed to load footprints:\n\n") ++ msg]) ∧
    ((onEventsError st msg).events = st.events ∧
      (onEventsError st msg).tableFeatures = st.tableFeatures ∧
      (onEventsError st msg).projectFootprintsLayer =
        st.projectFootprintsLayer ∧
      (onEventsError st msg).userMessages =
        st.userMessages ++
          [("Failed to load events from GitHub:\n\n") ++ msg ++
            ("\n\nPlease check your internet connection and try again.")]) ∧
    ((onFootprintsLoaded st features maxCloud df false).projectFootprintsLayer
        = none ∧
      (onFootprintsLoaded st features maxCloud df false).tableFeatures =
        applyFilters features maxCloud df ∧
      (onFootprintsLoaded st features maxCloud df false).userMessages =
        st.userMessages ++ [("Failed to create footprints layer.")]) := by
  refine ⟨⟨rfl, rfl, rfl, rfl⟩, ⟨rfl, rfl, rfl, rfl⟩, ?_, ?_, ?_⟩ <;>
    simp [onFootprintsLoaded, addFootprintsLayer]
